import Mathlib

/-!
Shallow embedding of the repository `usama-rao/real-estate-ml-project`,
file `src/data/clean_data.py` (class `RealEstateDataCleaner`).

A pandas `DataFrame` is modelled as an ordered list of named, typed
columns together with a list of rows; each row keeps its pandas index
label (`Row.idx`) and one cell per column.  A missing cell (`NaN` for a
numeric column, `NaN`/`None` for an object column) is modelled as
`none`.  Floating point values that the script manipulates are exact
rationals; the places where IEEE semantics matter (`NaN` comparisons,
division by zero inside the z-score) are modelled explicitly at those
places.

Python exceptions that can escape a method are modelled with
`Except PyErr`; methods that the source wraps in `try/except` (or that
cannot raise) return plain values.  Each method of the class becomes a
function taking the object state (`CleanerState`) and returning the new
state together with the Python return value.  File I/O is abstracted by
an environment `Env` mapping paths to parsed tables (a missing or
malformed file is a path with no table) plus a writability predicate.

Note on the source text: the parameter name of `load_data` and of
`save_cleaned_data` was clobbered in the checked-in file by a literal
path string (a bad find/replace); the body and all call sites use it as
the path argument, and it is embedded here as `path`.
-/

/-- Declared type of a column: pandas numeric dtype or object (text) dtype. -/
inductive ColType
  | numeric
  | object
deriving DecidableEq

/-- One cell of a table; `none` is a missing value (NaN / None). -/
inductive Cell
  | num (x : Option ℚ)
  | obj (s : Option String)
deriving DecidableEq

/-- One row: the pandas index label plus one cell per column. -/
structure Row where
  idx : Nat
  cells : List Cell
deriving DecidableEq

/-- A pandas DataFrame: column names, column dtypes, rows. -/
structure DataFrame where
  colNames : List String
  colTypes : List ColType
  rows : List Row
deriving DecidableEq

/-- The Python exceptions that the script can actually raise. -/
inductive PyErr
  | nameError
  | zeroDivision
  | valueError
  | keyError
  | attributeError
deriving DecidableEq

instance {ε α : Type} [DecidableEq ε] [DecidableEq α] : DecidableEq (Except ε α) :=
  fun x y =>
  match x, y with
  | Except.error a, Except.error b =>
    if h : a = b then Decidable.isTrue (by rw [h])
    else Decidable.isFalse (fun hc => h (Except.error.inj hc))
  | Except.error _, Except.ok _ => Decidable.isFalse (fun hc => Except.noConfusion hc)
  | Except.ok _, Except.error _ => Decidable.isFalse (fun hc => Except.noConfusion hc)
  | Except.ok a, Except.ok b =>
    if h : a = b then Decidable.isTrue (by rw [h])
    else Decidable.isFalse (fun hc => h (Except.ok.inj hc))

/-- A float value as needed for the quality report percentages:
NaN (0/0), +inf (positive/0), or an exact value. -/
inductive FVal
  | nan
  | inf
  | val (x : ℚ)
deriving DecidableEq

/-- pandas `isnull` on one cell. -/
def cellIsNull : Cell → Bool
  | Cell.num none => true
  | Cell.obj none => true
  | _ => false

/-- The cells of column `j`, one per row (in row order). -/
def colCells (df : DataFrame) (j : Nat) : List Cell :=
  df.rows.map (fun r => r.cells.getD j (Cell.num none))

/-- The non-missing numeric values among a list of cells. -/
def cellNums (cs : List Cell) : List ℚ :=
  cs.filterMap (fun c => match c with
    | Cell.num (some v) => some v
    | _ => none)

/-- The non-missing string values among a list of cells. -/
def cellStrs (cs : List Cell) : List String :=
  cs.filterMap (fun c => match c with
    | Cell.obj (some s) => some s
    | _ => none)

/-- The non-missing numeric values of column `j` (pandas skips NaN). -/
def colNums (df : DataFrame) (j : Nat) : List ℚ :=
  cellNums (colCells df j)

/-- Positions of the numeric columns (`select_dtypes(include=[np.number])`). -/
def numericColIdxs (df : DataFrame) : List Nat :=
  (List.range df.colTypes.length).filter
    (fun j => df.colTypes.getD j ColType.object == ColType.numeric)

/-- Insert a rational into a sorted list (ascending). -/
def insertSorted (x : ℚ) : List ℚ → List ℚ
  | [] => [x]
  | y :: ys => if x ≤ y then x :: y :: ys else y :: insertSorted x ys

/-- Ascending insertion sort. -/
def sortQ (l : List ℚ) : List ℚ :=
  l.foldr insertSorted []

/-- pandas `Series.median` over the non-missing values: middle element of
the sorted values, or the mean of the two middle elements; NaN (`none`)
on an empty list. -/
def medianQ (l : List ℚ) : Option ℚ :=
  let s := sortQ l
  let n := s.length
  if n = 0 then none
  else if n % 2 = 1 then some (s.getD (n / 2) 0)
  else some ((s.getD (n / 2 - 1) 0 + s.getD (n / 2) 0) / 2)

/-- pandas `Series.quantile(q)` over the non-missing values: linear
interpolation between closest ranks of the sorted values; NaN (`none`)
on an empty list. -/
def quantileLin (q : ℚ) (l : List ℚ) : Option ℚ :=
  let s := sortQ l
  if s.length = 0 then none
  else
    let pos : ℚ := q * ((s.length : ℚ) - 1)
    let i : Nat := (⌊pos⌋).toNat
    let frac : ℚ := pos - (i : ℚ)
    let vi := s.getD i 0
    let vi1 := s.getD (i + 1) vi
    some (vi + frac * (vi1 - vi))

/-- The largest multiplicity among the elements of `l`. -/
def maxCount (l : List String) : Nat :=
  (l.map (fun s => l.count s)).foldr max 0

/-- Smallest string of a list (lexicographic), `none` on an empty list. -/
def minString : List String → Option String
  | [] => none
  | s :: rest =>
    match minString rest with
    | none => some s
    | some m => some (if s ≤ m then s else m)

/-- pandas `Series.mode()[0]` over the non-missing values: the
lexicographically smallest among the most frequent values (`mode`
returns the maximal-multiplicity values sorted ascending); `none` when
there are no values (so that `mode()` is empty). -/
def modeStr (l : List String) : Option String :=
  minString (l.filter (fun s => l.count s == maxCount l))

/-- `fillna` on one cell with an optional fill value: a missing cell
takes the fill value when there is one (filling with NaN is a no-op). -/
def fillCell (fv : Option Cell) (c : Cell) : Cell :=
  if cellIsNull c then fv.getD c else c

/-- Apply the per-column fill values positionally to the cells of a row. -/
def fillCells : List (Option Cell) → List Cell → List Cell
  | _, [] => []
  | [], c :: cs => c :: fillCells [] cs
  | fv :: fvs, c :: cs => fillCell fv c :: fillCells fvs cs

/-- The fill value of one column under strategy `default`: the median of
the non-missing values for a numeric column (none when the column is all
missing, so filling is a no-op), the mode — or the literal `Unknown`
when the column has no non-missing value — for an object column. -/
def colFillValue (ty : ColType) (cells : List Cell) : Option Cell :=
  match ty with
  | ColType.numeric => (medianQ (cellNums cells)).map (fun m => Cell.num (some m))
  | ColType.object => some (Cell.obj (some ((modeStr (cellStrs cells)).getD "Unknown")))

/-- The per-column fill values of strategy `default`, in column order. -/
def fills (df : DataFrame) : List (Option Cell) :=
  (List.range df.colTypes.length).map
    (fun j => colFillValue (df.colTypes.getD j ColType.object) (colCells df j))

/-- Strategy `default` of `handle_missing_values`: fill the missing
cells of every numeric column with that column's median and of every
object column with that column's mode (or `Unknown`).  Each column's
fill value depends only on that column's own data, so the sequential
column loops of the source are one positional map. -/
def fillDefault (df : DataFrame) : DataFrame :=
  { df with rows := df.rows.map (fun r => { r with cells := fillCells (fills df) r.cells }) }

/-- Does the row have a missing cell in any column? -/
def rowHasNull (r : Row) : Bool :=
  r.cells.any cellIsNull

/-- pandas `dropna`: keep exactly the rows without missing cells. -/
def dropnaDf (df : DataFrame) : DataFrame :=
  { df with rows := df.rows.filter (fun r => !rowHasNull r) }

/-- pandas `drop_duplicates` on rows: keep a row iff its cell vector has
not been seen before (first occurrence kept; the index label is not part
of the comparison, and NaN cells compare equal as pandas does). -/
def dedupRows : List Row → List (List Cell) → List Row
  | [], _ => []
  | r :: rs, seen =>
    if r.cells ∈ seen then dedupRows rs seen
    else r :: dedupRows rs (r.cells :: seen)

/-- Number of missing cells in column `j` (`isnull().sum()` per column). -/
def missingCountCol (df : DataFrame) (j : Nat) : Nat :=
  ((colCells df j).filter cellIsNull).length

/-- Total number of missing cells (`isnull().sum().sum()`). -/
def missingTotal (df : DataFrame) : Nat :=
  ((List.range df.colNames.length).map (fun j => missingCountCol df j)).sum

/-- Round to the nearest integer, ties to even (numpy and pandas rounding). -/
def roundHalfEven (y : ℚ) : ℤ :=
  let f := ⌊y⌋
  let r := y - (f : ℚ)
  if r < 1/2 then f
  else if 1/2 < r then f + 1
  else if Even f then f else f + 1

/-- pandas `.round(2)`. -/
def round2 (x : ℚ) : ℚ :=
  (roundHalfEven (x * 100) : ℚ) / 100

/-- `missing_count / total_rows * 100`, rounded to 2 decimals, with the
numpy semantics of dividing by an integer zero inside a Series: `0/0`
is NaN and `k/0` (k positive) is +inf, without an exception. -/
def pctOf (cnt total : Nat) : FVal :=
  if total = 0 then (if cnt = 0 then FVal.nan else FVal.inf)
  else FVal.val (round2 ((cnt : ℚ) / (total : ℚ) * 100))

/-- Rows that are exact duplicates of an earlier row
(`duplicated().sum()`): all rows minus the kept first occurrences. -/
def dupCount (df : DataFrame) : Nat :=
  df.rows.length - (dedupRows df.rows []).length

/-- The dictionary built by `generate_data_quality_report`. -/
structure QualityReport where
  total_rows : Nat
  total_columns : Nat
  missing_values : List (String × Nat)
  missing_percentage : List (String × FVal)
  data_types : List (String × ColType)
  duplicate_rows : Nat
  numeric_columns : List String
deriving DecidableEq

/-- One value of the `outliers_info` dictionary of `detect_outliers`. -/
structure OutlierRec where
  count : Nat
  percentage : ℚ
  indices : List Nat
deriving DecidableEq

/-- The mutable attributes of a `RealEstateDataCleaner` object.  The
initial `cleaning_report = {}` (falsy empty dict) is `none`. -/
structure CleanerState where
  raw_data : Option DataFrame
  cleaned_data : Option DataFrame
  cleaning_report : Option QualityReport
deriving DecidableEq

/-- The file system boundary: which paths parse to a table (a missing or
malformed file is `none`), and which paths can be written. -/
structure Env where
  files : String → Option DataFrame
  writable : String → Bool

/-- The pristine object produced by `RealEstateDataCleaner()`. -/
def initState : CleanerState :=
  { raw_data := none, cleaned_data := none, cleaning_report := none }

/-- `load_data`: `pd.read_csv` inside `try/except`; on success the table
is stored in `raw_data` and returned, on failure the error is logged and
`None` is returned with the state untouched (the assignment never ran). -/
def load_data (env : Env) (st : CleanerState) (path : String) :
    CleanerState × Option DataFrame :=
  match env.files path with
  | some df => ({ st with raw_data := some df }, some df)
  | none => (st, none)

/-- The report computed by `generate_data_quality_report` from a table. -/
def mkReport (df : DataFrame) : QualityReport :=
  { total_rows := df.rows.length
    total_columns := df.colNames.length
    missing_values :=
      (List.range df.colNames.length).filterMap
        (fun j =>
          if 0 < missingCountCol df j then
            some (df.colNames.getD j "", missingCountCol df j)
          else none)
    missing_percentage :=
      (List.range df.colNames.length).map
        (fun j => (df.colNames.getD j "", pctOf (missingCountCol df j) df.rows.length))
    data_types := df.colNames.zip df.colTypes
    duplicate_rows := dupCount df
    numeric_columns := (numericColIdxs df).map (fun j => df.colNames.getD j "") }

/-- `generate_data_quality_report`: `None` (and no report stored) when
no data is loaded, otherwise the fresh report is stored and returned. -/
def generate_data_quality_report (st : CleanerState) :
    CleanerState × Option QualityReport :=
  match st.raw_data with
  | none => (st, none)
  | some df =>
    let rep := mkReport df
    ({ st with cleaning_report := some rep }, some rep)

/-- `print_data_quality_report`: regenerates the report when none is
stored; then reads `cleaning_report[total_rows]` etc., which raises
`KeyError` on the still-empty dict when no data was ever loaded. -/
def print_data_quality_report (st : CleanerState) : Except PyErr CleanerState :=
  let st1 :=
    match st.cleaning_report with
    | none => (generate_data_quality_report st).1
    | some _ => st
  match st1.cleaning_report with
  | none => Except.error PyErr.keyError
  | some _ => Except.ok st1

/-- `handle_missing_values`: `None` when no data is loaded; otherwise
`cleaned_data` is set to a copy of `raw_data`, the strategy (`default`
fill, `drop` rows, anything else: nothing) is applied to the copy, and
the copy is returned. -/
def handle_missing_values (st : CleanerState) (strategy : String) :
    CleanerState × Option DataFrame :=
  match st.raw_data with
  | none => (st, none)
  | some raw =>
    let cleaned :=
      if strategy = "default" then fillDefault raw
      else if strategy = "drop" then dropnaDf raw
      else raw
    ({ st with cleaned_data := some cleaned }, some cleaned)

/-- `remove_duplicates`: `None` when `cleaned_data` does not exist;
otherwise `drop_duplicates(inplace=True)` and the table is returned. -/
def remove_duplicates (st : CleanerState) : CleanerState × Option DataFrame :=
  match st.cleaned_data with
  | none => (st, none)
  | some df =>
    let df2 := { df with rows := dedupRows df.rows [] }
    ({ st with cleaned_data := some df2 }, some df2)

/-- Q1, Q3 of the source: the outlier bounds
`[Q1 - 1.5 IQR, Q3 + 1.5 IQR]`; `none` (NaN bounds) when the column has
no non-missing value. -/
def iqrBounds (nums : List ℚ) : Option (ℚ × ℚ) :=
  match quantileLin (1/4) nums, quantileLin (3/4) nums with
  | some q1, some q3 => some (q1 - 3/2 * (q3 - q1), q3 + 3/2 * (q3 - q1))
  | _, _ => none

/-- `(cleaned_data[col] < lower_bound) | (cleaned_data[col] > upper_bound)`
on one cell: comparisons with NaN (missing cell or NaN bound) are false. -/
def outsideBounds (bds : Option (ℚ × ℚ)) (c : Cell) : Bool :=
  match bds, c with
  | some (lo, hi), Cell.num (some v) => decide (v < lo) || decide (hi < v)
  | _, _ => false

/-- pandas `mean()` and sample variance (`std()` squared, ddof = 1) of
the non-missing values; `none` is NaN (no value for the mean, at most
one value for the deviation). -/
def meanVar (nums : List ℚ) : Option ℚ × Option ℚ :=
  let n := nums.length
  if n = 0 then (none, none)
  else
    let m := nums.sum / (n : ℚ)
    if n = 1 then (some m, none)
    else (some m, some ((nums.map (fun v => (v - m) ^ 2)).sum / ((n : ℚ) - 1)))

/-- `np.abs((x - mean) / std) > 3` on one cell.  `std` is the square
root of the sample variance; for positive variance the comparison
`|x - mean| / std > 3` holds iff `(x - mean)^2 > 9 var` (`zFlag_spec`
below), which keeps the test exact over `ℚ`.  With `std = 0` the
division gives NaN (`0/0`, when the value equals the mean) or infinity,
and with a NaN operand anywhere it gives NaN; `NaN > 3` is false. -/
def zFlag (mv : Option ℚ × Option ℚ) (c : Cell) : Bool :=
  match c with
  | Cell.num (some v) =>
    match mv with
    | (some m, some var) =>
      if var = 0 then (if v = m then false else true)
      else decide ((v - m) ^ 2 > 9 * var)
    | _ => false
  | _ => false

/-- The per-cell outlier test selected by `method`; an unknown method
leaves the local variable `outliers` unbound, so reading it raises
`NameError`. -/
def methodFlag (df : DataFrame) (method : String) (j : Nat) :
    Except PyErr (Cell → Bool) :=
  if method = "iqr" then Except.ok (outsideBounds (iqrBounds (colNums df j)))
  else if method = "zscore" then Except.ok (zFlag (meanVar (colNums df j)))
  else Except.error PyErr.nameError

/-- The record stored in `outliers_info[col]` once the flagged rows are
known: count, percentage of the current row count, flagged index labels. -/
def outlierRecord (df : DataFrame) (flag : Cell → Bool) (j : Nat) : OutlierRec :=
  let outl := df.rows.filter (fun r => flag (r.cells.getD j (Cell.num none)))
  { count := outl.length
    percentage := (outl.length : ℚ) / (df.rows.length : ℚ) * 100
    indices := outl.map Row.idx }

/-- One iteration of the column loop of `detect_outliers`: select the
flagged rows, then build the record — whose percentage divides by
`len(cleaned_data)` and raises `ZeroDivisionError` on an empty table. -/
def outlierEntry (df : DataFrame) (method : String) (j : Nat) :
    Except PyErr (String × OutlierRec) :=
  match methodFlag df method j with
  | Except.error e => Except.error e
  | Except.ok flag =>
    if df.rows.length = 0 then Except.error PyErr.zeroDivision
    else Except.ok (df.colNames.getD j "", outlierRecord df flag j)

/-- The column loop of `detect_outliers`, building `outliers_info` in
column order. -/
def outlierLoop (df : DataFrame) (method : String) :
    List Nat → Except PyErr (List (String × OutlierRec))
  | [] => Except.ok []
  | j :: js =>
    match outlierEntry df method j with
    | Except.error e => Except.error e
    | Except.ok entry =>
      match outlierLoop df method js with
      | Except.error e => Except.error e
      | Except.ok rest => Except.ok (entry :: rest)

/-- `detect_outliers`: `None` when `cleaned_data` does not exist;
otherwise the requested columns (default: all numeric columns) are
scanned and the `outliers_info` dictionary is returned.  The state is
returned alongside: the method assigns no attribute. -/
def detect_outliers (st : CleanerState) (method : String)
    (columns : Option (List Nat)) :
    Except PyErr (CleanerState × Option (List (String × OutlierRec))) :=
  match st.cleaned_data with
  | none => Except.ok (st, none)
  | some df =>
    match outlierLoop df method (columns.getD (numericColIdxs df)) with
    | Except.error e => Except.error e
    | Except.ok info => Except.ok (st, some info)

/-- `save_cleaned_data`: `False` when `cleaned_data` does not exist;
otherwise parent directories are created and the table is written
(without the index column) — any I/O failure is caught and surfaces as
`False`.  The object state is never assigned. -/
def save_cleaned_data (env : Env) (st : CleanerState) (path : String) :
    Env × CleanerState × Bool :=
  match st.cleaned_data with
  | none => (env, st, false)
  | some df =>
    if env.writable path then
      ({ env with files := fun p => if p = path then some df else env.files p }, st, true)
    else (env, st, false)

/-- The truthiness test `not self.load_data(input_path)` of the
pipeline: `not None` is `True`, but `bool` of a pandas DataFrame raises
`ValueError` (the truth value of a DataFrame is ambiguous). -/
def dfNotTruthy : Option DataFrame → Except PyErr Bool
  | none => Except.ok true
  | some _ => Except.error PyErr.valueError

/-- `clean_data_pipeline`: load, report, handle missing values, remove
duplicates, detect outliers (outlier removal itself is unimplemented),
count the remaining missing cells, save.  The guard
`if not self.load_data(input_path)` returns `False` when the load
failed and raises `ValueError` when it succeeded, so the steps after
the guard are unreachable in every execution. -/
def clean_data_pipeline (env : Env) (st : CleanerState)
    (input_path output_path missing_strategy : String)
    (remove_outliers : Bool) (outlier_method : String) :
    Except PyErr (Env × CleanerState × Bool) :=
  let lp := load_data env st input_path
  match dfNotTruthy lp.2 with
  | Except.error e => Except.error e
  | Except.ok true => Except.ok (env, lp.1, false)
  | Except.ok false =>
    let st2 := (generate_data_quality_report lp.1).1
    match print_data_quality_report st2 with
    | Except.error e => Except.error e
    | Except.ok st3 =>
      let st4 := (handle_missing_values st3 missing_strategy).1
      let st5 := (remove_duplicates st4).1
      match
        (if remove_outliers then detect_outliers st5 outlier_method none
         else detect_outliers st5 outlier_method none) with
      | Except.error e => Except.error e
      | Except.ok _ =>
        match st5.cleaned_data with
        | none => Except.error PyErr.attributeError
        | some _ =>
          let sv := save_cleaned_data env st5 output_path
          Except.ok (sv.1, sv.2.1, sv.2.2)

/-- A one-column numeric table holding 1, 2, 3, 4, 5, 100 (the worked
IQR example of the specification). -/
def df6 : DataFrame :=
  { colNames := ["v"]
    colTypes := [ColType.numeric]
    rows :=
      [⟨0, [Cell.num (some 1)]⟩, ⟨1, [Cell.num (some 2)]⟩,
       ⟨2, [Cell.num (some 3)]⟩, ⟨3, [Cell.num (some 4)]⟩,
       ⟨4, [Cell.num (some 5)]⟩, ⟨5, [Cell.num (some 100)]⟩] }

/-- A cleaner that has loaded `df6` and copied it to `cleaned_data`. -/
def stDf6 : CleanerState :=
  { raw_data := some df6, cleaned_data := some df6, cleaning_report := none }

/-- A one-numeric-column table with no rows at all. -/
def dfNoRows : DataFrame :=
  { colNames := ["v"], colTypes := [ColType.numeric], rows := [] }

/-- A cleaner whose cleaned table is empty. -/
def stNoRows : CleanerState :=
  { raw_data := some dfNoRows, cleaned_data := some dfNoRows, cleaning_report := none }

/-- A two-column table (one numeric, one object) with missing cells and
a duplicate row. -/
def dfMiss : DataFrame :=
  { colNames := ["price", "city"]
    colTypes := [ColType.numeric, ColType.object]
    rows :=
      [⟨0, [Cell.num (some 10), Cell.obj (some "rome")]⟩,
       ⟨1, [Cell.num none, Cell.obj (some "pisa")]⟩,
       ⟨2, [Cell.num (some 30), Cell.obj none]⟩,
       ⟨3, [Cell.num (some 10), Cell.obj (some "rome")]⟩,
       ⟨4, [Cell.num (some 20), Cell.obj (some "pisa")]⟩] }

/-- A cleaner that has loaded `dfMiss`. -/
def stMiss : CleanerState :=
  { raw_data := some dfMiss, cleaned_data := none, cleaning_report := none }

/-- A cleaner that has loaded `dfMiss` and copied it to `cleaned_data`
(so duplicate rows 0 and 3 are present in the cleaned table). -/
def stDup : CleanerState :=
  { raw_data := some dfMiss, cleaned_data := some dfMiss, cleaning_report := none }

/-- A one-numeric-column table whose two values are both 7
(sample standard deviation 0). -/
def dfConst : DataFrame :=
  { colNames := ["v"]
    colTypes := [ColType.numeric]
    rows := [⟨0, [Cell.num (some 7)]⟩, ⟨1, [Cell.num (some 7)]⟩] }

/-- A cleaner whose cleaned table is `dfConst`. -/
def stConst : CleanerState :=
  { raw_data := some dfConst, cleaned_data := some dfConst, cleaning_report := none }

/-- An environment where `in.csv` parses to `df6` and every path is
writable. -/
def env1 : Env :=
  { files := fun p => if p = "in.csv" then some df6 else none
    writable := fun _ => true }

/-- An environment with no readable file at all. -/
def envNone : Env :=
  { files := fun _ => none, writable := fun _ => true }

/-- The cell of row `i`, column `j` (with the missing-cell default out of
range; theorems only use it in range). -/
def getCell (df : DataFrame) (i j : Nat) : Cell :=
  (df.rows.getD i ⟨0, []⟩).cells.getD j (Cell.num none)

/-- The per-cell outlier test that `methodFlag` returns on a valid
method name. -/
def validFlag (df : DataFrame) (method : String) (j : Nat) : Cell → Bool :=
  if method = "iqr" then outsideBounds (iqrBounds (colNums df j))
  else zFlag (meanVar (colNums df j))

/-! ### Lemmas about `drop_duplicates` -/

theorem dedupRows_sublist (l : List Row) (seen : List (List Cell)) :
    (dedupRows l seen).Sublist l := by
  induction l generalizing seen with
  | nil => simp [dedupRows]
  | cons r rs ih =>
    by_cases h : r.cells ∈ seen
    · simp only [dedupRows, if_pos h]
      exact (ih seen).cons r
    · simp only [dedupRows, if_neg h]
      exact (ih (r.cells :: seen)).cons₂ r

theorem mem_dedupRows {r : Row} {l : List Row} {seen : List (List Cell)}
    (h : r ∈ dedupRows l seen) : r ∈ l ∧ r.cells ∉ seen := by
  induction l generalizing seen with
  | nil => simp [dedupRows] at h
  | cons a rs ih =>
    by_cases ha : a.cells ∈ seen
    · simp only [dedupRows, if_pos ha] at h
      rcases ih h with ⟨h1, h2⟩
      exact ⟨List.mem_cons_of_mem a h1, h2⟩
    · simp only [dedupRows, if_neg ha] at h
      rcases List.mem_cons.mp h with rfl | hmem
      · exact ⟨List.mem_cons_self _ _, ha⟩
      · rcases ih hmem with ⟨h1, h2⟩
        exact ⟨List.mem_cons_of_mem a h1, fun hs => h2 (List.mem_cons_of_mem _ hs)⟩

theorem dedupRows_keeps_first : ∀ (l₁ : List Row) (r : Row) (l₂ : List Row)
    (seen : List (List Cell)), (∀ x ∈ l₁, x.cells ≠ r.cells) →
    r.cells ∉ seen → r ∈ dedupRows (l₁ ++ r :: l₂) seen := by
  intro l₁
  induction l₁ with
  | nil =>
    intro r l₂ seen _ hs
    simp only [List.nil_append, dedupRows, if_neg hs]
    exact List.mem_cons_self _ _
  | cons a t ih =>
    intro r l₂ seen hne hs
    by_cases ha : a.cells ∈ seen
    · simp only [List.cons_append, dedupRows, if_pos ha]
      exact ih r l₂ seen (fun x hx => hne x (List.mem_cons_of_mem a hx)) hs
    · simp only [List.cons_append, dedupRows, if_neg ha]
      refine List.mem_cons_of_mem a
        (ih r l₂ _ (fun x hx => hne x (List.mem_cons_of_mem a hx)) ?_)
      intro hmem
      rcases List.mem_cons.mp hmem with heq | hmem2
      · exact hne a (List.mem_cons_self a t) heq.symm
      · exact hs hmem2

theorem dedupRows_mem_is_first {r : Row} {l : List Row} {seen : List (List Cell)}
    (h : r ∈ dedupRows l seen) :
    ∃ l₁ l₂, l = l₁ ++ r :: l₂ ∧ ∀ x ∈ l₁, x.cells ≠ r.cells := by
  induction l generalizing seen with
  | nil => simp [dedupRows] at h
  | cons a t ih =>
    by_cases ha : a.cells ∈ seen
    · simp only [dedupRows, if_pos ha] at h
      rcases ih h with ⟨l₁, l₂, he, hne⟩
      have hrs : r.cells ∉ seen := (mem_dedupRows h).2
      refine ⟨a :: l₁, l₂, by rw [he, List.cons_append], ?_⟩
      intro x hx
      rcases List.mem_cons.mp hx with rfl | hx2
      · intro hc; exact hrs (hc ▸ ha)
      · exact hne x hx2
    · simp only [dedupRows, if_neg ha] at h
      rcases List.mem_cons.mp h with rfl | hmem
      · exact ⟨[], t, rfl, by simp⟩
      · rcases ih hmem with ⟨l₁, l₂, he, hne⟩
        have hrs : r.cells ∉ a.cells :: seen := (mem_dedupRows hmem).2
        refine ⟨a :: l₁, l₂, by rw [he, List.cons_append], ?_⟩
        intro x hx
        rcases List.mem_cons.mp hx with rfl | hx2
        · intro hc; exact hrs (hc ▸ List.mem_cons_self _ _)
        · exact hne x hx2

theorem dedupRows_cells_nodup (l : List Row) (seen : List (List Cell)) :
    ((dedupRows l seen).map Row.cells).Nodup := by
  induction l generalizing seen with
  | nil => simp [dedupRows]
  | cons a t ih =>
    by_cases ha : a.cells ∈ seen
    · simpa only [dedupRows, if_pos ha] using ih seen
    · simp only [dedupRows, if_neg ha, List.map_cons, List.nodup_cons]
      refine ⟨?_, ih (a.cells :: seen)⟩
      intro hmem
      rcases List.mem_map.mp hmem with ⟨x, hx, hcx⟩
      exact (mem_dedupRows hx).2 (hcx ▸ List.mem_cons_self _ _)

theorem dedupRows_eq_self {l : List Row} {seen : List (List Cell)}
    (hnd : (l.map Row.cells).Nodup) (hs : ∀ r ∈ l, r.cells ∉ seen) :
    dedupRows l seen = l := by
  induction l generalizing seen with
  | nil => simp [dedupRows]
  | cons a t ih =>
    have ha : a.cells ∉ seen := hs a (List.mem_cons_self a t)
    simp only [dedupRows, if_neg ha]
    simp only [List.map_cons, List.nodup_cons] at hnd
    refine congrArg (a :: ·) (ih hnd.2 ?_)
    intro r hr
    intro hmem
    rcases List.mem_cons.mp hmem with heq | hmem2
    · exact hnd.1 (heq ▸ List.mem_map.mpr ⟨r, hr, rfl⟩)
    · exact hs r (List.mem_cons_of_mem a hr) hmem2

theorem dedupRows_idem (l : List Row) :
    dedupRows (dedupRows l []) [] = dedupRows l [] :=
  dedupRows_eq_self (dedupRows_cells_nodup l []) (by simp)

/-! ### Lemmas about the mode -/

theorem le_foldr_max {a : ℕ} : ∀ {xs : List ℕ}, a ∈ xs → a ≤ xs.foldr max 0 := by
  intro xs
  induction xs with
  | nil => intro h; simp at h
  | cons x t ih =>
    intro h
    rcases List.mem_cons.mp h with rfl | hmem
    · exact le_max_of_le_left le_rfl
    · exact le_max_of_le_right (ih hmem)

theorem foldr_max_mem : ∀ {xs : List ℕ}, xs ≠ [] → xs.foldr max 0 ∈ xs := by
  intro xs
  induction xs with
  | nil => intro h; exact absurd rfl h
  | cons x t ih =>
    intro _
    cases t with
    | nil => simp
    | cons y t0 =>
      have h2 : List.foldr max 0 (y :: t0) ∈ y :: t0 := ih (by simp)
      simp only [List.foldr_cons] at *
      rcases max_choice x (max y (List.foldr max 0 t0)) with hc | hc
      · rw [hc]; exact List.mem_cons_self _ _
      · rw [hc]; exact List.mem_cons_of_mem x h2

theorem count_le_maxCount {w : String} {l : List String} (h : w ∈ l) :
    l.count w ≤ maxCount l :=
  le_foldr_max (List.mem_map_of_mem (fun s => l.count s) h)

theorem maxCount_attained {l : List String} (h : l ≠ []) :
    ∃ s ∈ l, l.count s = maxCount l := by
  have hm : maxCount l ∈ l.map (fun s => l.count s) :=
    foldr_max_mem (by simpa using h)
  rcases List.mem_map.mp hm with ⟨s, hs, he⟩
  exact ⟨s, hs, he⟩

theorem minString_mem : ∀ {l : List String} {v : String},
    minString l = some v → v ∈ l := by
  intro l
  induction l with
  | nil => intro v h; simp [minString] at h
  | cons s t ih =>
    intro v h
    simp only [minString] at h
    rcases hm : minString t with _ | m
    · rw [hm] at h
      exact (Option.some_inj.mp h) ▸ List.mem_cons_self _ _
    · rw [hm] at h
      have := Option.some_inj.mp h
      by_cases hle : s ≤ m
      · simp only [if_pos hle] at this
        exact this ▸ List.mem_cons_self _ _
      · simp only [if_neg hle] at this
        exact this ▸ List.mem_cons_of_mem s (ih hm)

theorem minString_isSome {l : List String} (h : l ≠ []) :
    (minString l).isSome := by
  rcases l with _ | ⟨s, t⟩
  · exact absurd rfl h
  · simp only [minString]
    rcases minString t with _ | m <;> simp

theorem modeStr_isSome {l : List String} (h : l ≠ []) :
    (modeStr l).isSome := by
  refine minString_isSome ?_
  rcases maxCount_attained h with ⟨s, hs, he⟩
  exact List.ne_nil_of_mem (List.mem_filter.mpr ⟨hs, by simpa using he⟩)

theorem modeStr_mem {l : List String} {v : String} (h : modeStr l = some v) :
    v ∈ l :=
  (List.mem_filter.mp (minString_mem h)).1

theorem modeStr_count {l : List String} {v : String} (h : modeStr l = some v) :
    ∀ w ∈ l, l.count w ≤ l.count v := by
  have hv : l.count v = maxCount l := by
    have := (List.mem_filter.mp (minString_mem h)).2
    simpa using this
  intro w hw
  exact hv ▸ count_le_maxCount hw

/-! ### Lemmas about the default fill -/

theorem fillCell_none (c : Cell) : fillCell none c = c := by
  simp [fillCell]

theorem fillCells_length : ∀ (fvs : List (Option Cell)) (cs : List Cell),
    (fillCells fvs cs).length = cs.length := by
  intro fvs cs
  induction cs generalizing fvs with
  | nil => cases fvs <;> simp [fillCells]
  | cons c cs ih =>
    cases fvs with
    | nil => simp [fillCells, ih]
    | cons fv fvs => simp [fillCells, ih]

theorem fillCells_getD : ∀ (fvs : List (Option Cell)) (cs : List Cell) (j : Nat),
    j < cs.length →
    (fillCells fvs cs).getD j (Cell.num none) =
      fillCell (fvs.getD j none) (cs.getD j (Cell.num none)) := by
  intro fvs cs
  induction cs generalizing fvs with
  | nil => intro j h; simp at h
  | cons c cs ih =>
    intro j hj
    cases fvs with
    | nil =>
      cases j with
      | zero => simp [fillCells, fillCell_none]
      | succ j =>
        simp only [fillCells, List.getD_cons_succ]
        exact ih [] j (by simpa using hj)
    | cons fv fvs =>
      cases j with
      | zero => simp [fillCells]
      | succ j =>
        simp only [fillCells, List.getD_cons_succ]
        exact ih fvs j (by simpa using hj)

theorem fills_getD {df : DataFrame} {j : Nat} (hj : j < df.colTypes.length) :
    (fills df).getD j none =
      colFillValue (df.colTypes.getD j ColType.object) (colCells df j) := by
  have hlen : j < (fills df).length := by simp [fills, hj]
  rw [List.getD_eq_get (fills df) none hlen]
  simp only [fills, List.get_map]
  rw [List.get_range]

theorem fillDefault_getCell (df : DataFrame) (i j : Nat)
    (hi : i < df.rows.length) (hj : j < (df.rows.getD i ⟨0, []⟩).cells.length) :
    getCell (fillDefault df) i j =
      fillCell ((fills df).getD j none) (getCell df i j) := by
  have h2 : df.rows.getD i ⟨0, []⟩ = df.rows.get ⟨i, hi⟩ :=
    List.getD_eq_get df.rows ⟨0, []⟩ hi
  have hi2 : i < (fillDefault df).rows.length := by simp [fillDefault, hi]
  have h3 : (fillDefault df).rows.getD i ⟨0, []⟩ =
      { df.rows.get ⟨i, hi⟩ with cells := fillCells (fills df) (df.rows.get ⟨i, hi⟩).cells } := by
    rw [List.getD_eq_get (fillDefault df).rows ⟨0, []⟩ hi2]
    simp [fillDefault, List.get_map]
  rw [h2] at hj
  simp only [getCell, h2, h3]
  exact fillCells_getD (fills df) _ j hj

theorem fillDefault_length (df : DataFrame) :
    (fillDefault df).rows.length = df.rows.length := by
  simp [fillDefault]

/-! ### Lemmas about `detect_outliers` -/

theorem methodFlag_valid {method : String} (df : DataFrame) (j : Nat)
    (h : method = "iqr" ∨ method = "zscore") :
    methodFlag df method j = Except.ok (validFlag df method j) := by
  rcases h with rfl | rfl
  · simp [methodFlag, validFlag]
  · simp [methodFlag, validFlag]

theorem outlierLoop_valid {method : String} (df : DataFrame)
    (h : method = "iqr" ∨ method = "zscore") (hn : df.rows.length ≠ 0) :
    ∀ cols, outlierLoop df method cols =
      Except.ok (cols.map (fun j =>
        (df.colNames.getD j "", outlierRecord df (validFlag df method j) j))) := by
  intro cols
  induction cols with
  | nil => simp [outlierLoop]
  | cons j js ih =>
    simp only [outlierLoop, outlierEntry, methodFlag_valid df j h, if_neg hn, ih,
      List.map_cons]

theorem detect_outliers_valid {st : CleanerState} {df : DataFrame} {method : String}
    (h : st.cleaned_data = some df) (hv : method = "iqr" ∨ method = "zscore")
    (hn : df.rows.length ≠ 0) :
    detect_outliers st method none =
      Except.ok (st, some ((numericColIdxs df).map (fun j =>
        (df.colNames.getD j "", outlierRecord df (validFlag df method j) j)))) := by
  simp only [detect_outliers, h, Option.getD_none, outlierLoop_valid df hv hn]

/-! ### Lemmas about the z-score with zero standard deviation -/

theorem sum_all_eq {c : ℚ} : ∀ {l : List ℚ}, (∀ v ∈ l, v = c) →
    l.sum = c * l.length := by
  intro l
  induction l with
  | nil => intro _; simp
  | cons x t ih =>
    intro h
    have hx : x = c := h x (List.mem_cons_self x t)
    have ht : t.sum = c * t.length := ih (fun v hv => h v (List.mem_cons_of_mem x hv))
    simp [hx, ht]
    ring

theorem meanVar_const {l : List ℚ} {c : ℚ} (hall : ∀ v ∈ l, v = c)
    (h2 : 2 ≤ l.length) : meanVar l = (some c, some 0) := by
  have hn0 : l.length ≠ 0 := by omega
  have hn1 : l.length ≠ 1 := by omega
  have hcast : (l.length : ℚ) ≠ 0 := Nat.cast_ne_zero.mpr hn0
  have hmean : l.sum / (l.length : ℚ) = c := by
    rw [sum_all_eq hall]
    field_simp
  have hzero : (l.map (fun v => (v - c) ^ 2)).sum = 0 := by
    apply List.sum_eq_zero
    intro x hx
    rcases List.mem_map.mp hx with ⟨v, hv, he⟩
    rw [← he, hall v hv]
    ring
  simp only [meanVar, if_neg hn0, if_neg hn1, hmean, hzero, zero_div]

theorem mem_cellNums {cs : List Cell} {v : ℚ} {c : Cell}
    (hc : c ∈ cs) (he : c = Cell.num (some v)) : v ∈ cellNums cs :=
  List.mem_filterMap.mpr ⟨c, hc, by rw [he]⟩

theorem zFlag_const_false {df : DataFrame} {j : Nat} {c : ℚ}
    (hall : ∀ v ∈ colNums df j, v = c) (h2 : 2 ≤ (colNums df j).length) :
    ∀ cl ∈ colCells df j, zFlag (meanVar (colNums df j)) cl = false := by
  intro cl hcl
  rw [meanVar_const hall h2]
  match cl with
  | Cell.obj s => rfl
  | Cell.num none => rfl
  | Cell.num (some v) =>
    have hv : v ∈ colNums df j := mem_cellNums hcl rfl
    have : v = c := hall v hv
    simp [zFlag, this]

theorem cell_mem_colCells {df : DataFrame} {j : Nat} {r : Row}
    (hr : r ∈ df.rows) : r.cells.getD j (Cell.num none) ∈ colCells df j :=
  List.mem_map.mpr ⟨r, hr, rfl⟩

theorem outlierRecord_const {df : DataFrame} {j : Nat} {c : ℚ}
    (hall : ∀ v ∈ colNums df j, v = c) (h2 : 2 ≤ (colNums df j).length) :
    outlierRecord df (zFlag (meanVar (colNums df j))) j =
      { count := 0, percentage := 0, indices := [] } := by
  have hfil : df.rows.filter
      (fun r => zFlag (meanVar (colNums df j)) (r.cells.getD j (Cell.num none))) = [] := by
    rw [List.filter_eq_nil]
    intro r hr
    simp only [Bool.not_eq_true]
    exact zFlag_const_false hall h2 _ (cell_mem_colCells hr)
  simp only [outlierRecord]
  rw [hfil]
  simp

/-! ### Frame helper lemmas -/

theorem handle_missing_values_raw (st : CleanerState) (s : String) :
    (handle_missing_values st s).1.raw_data = st.raw_data := by
  cases h : st.raw_data <;> simp [handle_missing_values, h]

theorem remove_duplicates_raw (st : CleanerState) :
    (remove_duplicates st).1.raw_data = st.raw_data := by
  cases h : st.cleaned_data <;> simp [remove_duplicates, h]

theorem remove_duplicates_of_cleaned {st : CleanerState} {df : DataFrame}
    (h : st.cleaned_data = some df) :
    (remove_duplicates st).1.cleaned_data =
      some { df with rows := dedupRows df.rows [] } := by
  simp [remove_duplicates, h]

theorem detect_outliers_state {st : CleanerState} {m : String}
    {cols : Option (List Nat)} {res}
    (he : detect_outliers st m cols = Except.ok res) : res.1 = st := by
  cases h : st.cleaned_data with
  | none =>
    simp only [detect_outliers, h] at he
    injection he with h2
    rw [← h2]
  | some df =>
    simp only [detect_outliers, h] at he
    cases hl : outlierLoop df m (cols.getD (numericColIdxs df)) with
    | error e => rw [hl] at he; exact absurd he (by simp)
    | ok info =>
      rw [hl] at he
      injection he with h2
      rw [← h2]

theorem handle_missing_values_of_raw {st : CleanerState} {df : DataFrame}
    (h : st.raw_data = some df) (s : String) :
    (handle_missing_values st s).1.cleaned_data =
      some (if s = "default" then fillDefault df
            else if s = "drop" then dropnaDf df else df) := by
  simp [handle_missing_values, h]

/-- Justification of the exact z-score test of `zFlag`: for a positive
variance, the source comparison `|x - mean| / std > 3` (with
`std = sqrt var` over the reals) holds exactly when
`(x - mean)^2 > 9 var`. -/
theorem zFlag_spec (v m var : ℚ) (hvar : 0 < var) :
    ((3 : ℝ) < |((v : ℝ) - (m : ℝ))| / Real.sqrt ((var : ℚ) : ℝ)) ↔
      9 * var < (v - m) ^ 2 := by
  have hvr : (0 : ℝ) < ((var : ℚ) : ℝ) := by exact_mod_cast hvar
  have hs : 0 < Real.sqrt ((var : ℚ) : ℝ) := Real.sqrt_pos.mpr hvr
  have hsq : Real.sqrt ((var : ℚ) : ℝ) ^ 2 = ((var : ℚ) : ℝ) := Real.sq_sqrt hvr.le
  rw [lt_div_iff hs]
  constructor
  · intro h
    have h9 : (9 : ℝ) * ((var : ℚ) : ℝ) < ((v : ℝ) - (m : ℝ)) ^ 2 := by
      nlinarith [abs_nonneg ((v : ℝ) - (m : ℝ)), sq_abs ((v : ℝ) - (m : ℝ)), hs]
    exact_mod_cast h9
  · intro h
    have h9 : (9 : ℝ) * ((var : ℚ) : ℝ) < ((v : ℝ) - (m : ℝ)) ^ 2 := by
      exact_mod_cast h
    nlinarith [abs_nonneg ((v : ℝ) - (m : ℝ)), sq_abs ((v : ℝ) - (m : ℝ)), hs,
      Real.sqrt_nonneg ((var : ℚ) : ℝ)]

/-! ### The claims -/

/-- C4: `handle_missing_values("drop")` removes exactly the rows with at
least one missing cell (keeping the others in their order, as a sublist),
and afterwards no column of the cleaned table has a missing cell. -/
theorem claim4_drop_removes_missing_rows (st : CleanerState) (df : DataFrame)
    (h : st.raw_data = some df)
    (hwf : ∀ r ∈ df.rows, df.colNames.length ≤ r.cells.length) :
    (handle_missing_values st "drop").1.cleaned_data = some (dropnaDf df) ∧
    (dropnaDf df).rows = df.rows.filter (fun r => !rowHasNull r) ∧
    (dropnaDf df).rows.Sublist df.rows ∧
    (∀ r ∈ (dropnaDf df).rows, r ∈ df.rows ∧ ∀ c ∈ r.cells, cellIsNull c = false) ∧
    (∀ r ∈ df.rows, rowHasNull r = false → r ∈ (dropnaDf df).rows) ∧
    (∀ j, j < df.colNames.length → missingCountCol (dropnaDf df) j = 0) := by
  have hmem : ∀ r ∈ (dropnaDf df).rows, r ∈ df.rows ∧ ∀ c ∈ r.cells, cellIsNull c = false := by
    intro r hr
    have h2 := List.mem_filter.mp hr
    refine ⟨h2.1, ?_⟩
    intro c hc
    have h3 : rowHasNull r = false := by
      rcases h2 with ⟨_, h4⟩
      revert h4
      cases rowHasNull r <;> simp
    have h4 := List.any_eq_false.mp h3
    have := h4 c hc
    revert this
    cases cellIsNull c <;> simp
  refine ⟨by simpa using handle_missing_values_of_raw h "drop", rfl,
    List.filter_sublist _, hmem, ?_, ?_⟩
  · intro r hr hnull
    exact List.mem_filter.mpr ⟨hr, by simp [hnull]⟩
  · intro j hj
    have hfil : (colCells (dropnaDf df) j).filter cellIsNull = [] := by
      rw [List.filter_eq_nil]
      intro c hc
      rcases List.mem_map.mp hc with ⟨r, hr, he⟩
      rcases hmem r hr with ⟨hrdf, hcells⟩
      have hlen : j < r.cells.length := lt_of_lt_of_le hj (hwf r hrdf)
      have hget : r.cells.getD j (Cell.num none) = r.cells.get ⟨j, hlen⟩ :=
        List.getD_eq_get r.cells (Cell.num none) hlen
      have hfact := hcells _ (List.get_mem r.cells j hlen)
      rw [← he, hget, hfact]
      simp
    simp [missingCountCol, hfil]

/-- C4 witness: dropping missing rows of the sample table `dfMiss` keeps
exactly the three complete rows. -/
theorem claim4_witness :
    (handle_missing_values stMiss "drop").1.cleaned_data = some (dropnaDf dfMiss) ∧
    missingCountCol (dropnaDf dfMiss) 0 = 0 :=
  ⟨(claim4_drop_removes_missing_rows stMiss dfMiss rfl (by decide)).1,
   (claim4_drop_removes_missing_rows stMiss dfMiss rfl (by decide)).2.2.2.2.2 0 (by decide)⟩

/-- C5: `handle_missing_values` with a strategy other than `default` and
`drop` raises nothing and leaves the data as a plain copy of the raw
table: the cleaned table equals the raw table cell for cell. -/
theorem claim5_unknown_strategy_noop (st : CleanerState) (df : DataFrame) (s : String)
    (h : st.raw_data = some df) (h1 : s ≠ "default") (h2 : s ≠ "drop") :
    handle_missing_values st s = ({ st with cleaned_data := some df }, some df) := by
  simp [handle_missing_values, h, h1, h2]

/-- C5 witness: the strategy string `noop` leaves `dfMiss` untouched. -/
theorem claim5_witness :
    handle_missing_values stMiss "noop" =
      ({ stMiss with cleaned_data := some dfMiss }, some dfMiss) :=
  claim5_unknown_strategy_noop stMiss dfMiss "noop" rfl (by decide) (by decide)

/-- C6: `remove_duplicates` keeps exactly the first occurrence of every
duplicate group: the result is a sublist of the rows (order preserved),
every kept row is the first row with its cell values, every row whose
cell values have no earlier occurrence is kept, and a second call
removes nothing. -/
theorem claim6_remove_duplicates (st : CleanerState) (df : DataFrame)
    (h : st.cleaned_data = some df) :
    (remove_duplicates st).1.cleaned_data =
      some { df with rows := dedupRows df.rows [] } ∧
    (dedupRows df.rows []).Sublist df.rows ∧
    (∀ r ∈ dedupRows df.rows [],
      ∃ l₁ l₂, df.rows = l₁ ++ r :: l₂ ∧ ∀ x ∈ l₁, x.cells ≠ r.cells) ∧
    (∀ l₁ (r : Row) l₂, df.rows = l₁ ++ r :: l₂ →
      (∀ x ∈ l₁, x.cells ≠ r.cells) → r ∈ dedupRows df.rows []) ∧
    (remove_duplicates (remove_duplicates st).1).1.cleaned_data =
      some { df with rows := dedupRows df.rows [] } := by
  have hc : (remove_duplicates st).1.cleaned_data =
      some { df with rows := dedupRows df.rows [] } :=
    remove_duplicates_of_cleaned h
  refine ⟨hc, dedupRows_sublist df.rows [], fun r hr => dedupRows_mem_is_first hr,
    ?_, ?_⟩
  · intro l₁ r l₂ he hne
    rw [he]
    exact dedupRows_keeps_first l₁ r l₂ [] hne (by simp)
  · rw [remove_duplicates_of_cleaned hc]
    simp [dedupRows_idem]

/-- C6 witness: deduplicating the sample table `dfMiss` (rows 0 and 3
coincide) and calling a second time changes nothing further. -/
theorem claim6_witness :
    (remove_duplicates stDup).1.cleaned_data =
      some { dfMiss with rows := dedupRows dfMiss.rows [] } ∧
    (remove_duplicates (remove_duplicates stDup).1).1.cleaned_data =
      some { dfMiss with rows := dedupRows dfMiss.rows [] } :=
  ⟨(claim6_remove_duplicates stDup dfMiss rfl).1,
   (claim6_remove_duplicates stDup dfMiss rfl).2.2.2.2⟩

/-- C9: the cleaning operations never assign the raw table —
`handle_missing_values` and `remove_duplicates` write `cleaned_data`
only, `save_cleaned_data` leaves the whole object state unchanged, and
any successful `detect_outliers` returns with `cleaned_data` and
`raw_data` exactly as they were. -/
theorem claim9_frame (st : CleanerState) (s : String) (env : Env)
    (p method : String) (cols : Option (List Nat)) :
    (handle_missing_values st s).1.raw_data = st.raw_data ∧
    (remove_duplicates st).1.raw_data = st.raw_data ∧
    (save_cleaned_data env st p).2.1 = st ∧
    ∀ res, detect_outliers st method cols = Except.ok res →
      res.1.cleaned_data = st.cleaned_data ∧ res.1.raw_data = st.raw_data := by
  refine ⟨handle_missing_values_raw st s, remove_duplicates_raw st, ?_, ?_⟩
  · cases h : st.cleaned_data with
    | none => simp [save_cleaned_data, h]
    | some df =>
      simp only [save_cleaned_data, h]
      split <;> rfl
  · intro res he
    rw [detect_outliers_state he]
    exact ⟨rfl, rfl⟩

/-- C9 witness: on the sample states the raw table survives
`handle_missing_values` and a concrete successful `detect_outliers` run
returns the state unchanged. -/
theorem claim9_witness :
    (handle_missing_values stDup "default").1.raw_data = stDup.raw_data ∧
    ((stDup, some ((numericColIdxs dfMiss).map (fun j =>
        (dfMiss.colNames.getD j "", outlierRecord dfMiss (validFlag dfMiss "iqr" j) j)))) :
        CleanerState × Option (List (String × OutlierRec))).1.cleaned_data =
      stDup.cleaned_data :=
  ⟨(claim9_frame stDup "default" env1 "out.csv" "iqr" none).1,
   ((claim9_frame stDup "default" env1 "out.csv" "iqr" none).2.2.2 _
      (detect_outliers_valid rfl (Or.inl rfl) (by decide))).1⟩

/-- C10: every `handle_missing_values` call on a loaded table rebuilds
`cleaned_data` from `raw_data` alone — two states with the same loaded
raw table get the same cleaned table whatever their previous cleaned
tables were, and running it after `remove_duplicates` yields exactly
what it yields without the deduplication (the dropped duplicate rows
reappear). -/
theorem claim10_cleaned_from_raw (st₁ st₂ : CleanerState) (df : DataFrame)
    (s : String) (h₁ : st₁.raw_data = some df) (h₂ : st₂.raw_data = some df) :
    (handle_missing_values st₁ s).1.cleaned_data =
      (handle_missing_values st₂ s).1.cleaned_data ∧
    (handle_missing_values ((remove_duplicates st₁).1) s).1.cleaned_data =
      (handle_missing_values st₁ s).1.cleaned_data := by
  have h₃ : ((remove_duplicates st₁).1).raw_data = some df := by
    rw [remove_duplicates_raw]; exact h₁
  rw [handle_missing_values_of_raw h₁, handle_missing_values_of_raw h₂,
    handle_missing_values_of_raw h₃]
  exact ⟨rfl, rfl⟩

/-- C1: the no-exception contract does not hold — concrete public calls
raise: `print_data_quality_report` on a fresh cleaner raises `KeyError`,
`detect_outliers("iqr")` on an empty cleaned table raises
`ZeroDivisionError`, `detect_outliers` with the unknown method `mean`
raises `NameError` (unbound local `outliers`), and `clean_data_pipeline`
raises `ValueError` precisely when the load succeeds (truthiness of a
DataFrame). -/
theorem claim1_exceptions_escape :
    print_data_quality_report initState = Except.error PyErr.keyError ∧
    detect_outliers stNoRows "iqr" none = Except.error PyErr.zeroDivision ∧
    detect_outliers stDf6 "mean" none = Except.error PyErr.nameError ∧
    clean_data_pipeline env1 initState "in.csv" "out.csv" "default" false "iqr" =
      Except.error PyErr.valueError := by
  refine ⟨rfl, by decide, by decide, rfl⟩

/-- C2: `clean_data_pipeline` returns `False` at once when the load
fails, leaving the environment (hence the output file) and the state
untouched; but when the load succeeds it raises `ValueError` instead of
running the remaining steps and returning the flag of the save. -/
theorem claim2_pipeline_load_gate :
    (∀ (env : Env) (st : CleanerState) (input output s : String) (ro : Bool)
      (m : String), env.files input = none →
      clean_data_pipeline env st input output s ro m = Except.ok (env, st, false)) ∧
    (∀ (env : Env) (st : CleanerState) (input output s : String) (ro : Bool)
      (m : String) (df : DataFrame), env.files input = some df →
      clean_data_pipeline env st input output s ro m = Except.error PyErr.valueError) := by
  constructor
  · intro env st input output s ro m h
    simp [clean_data_pipeline, load_data, h, dfNotTruthy]
  · intro env st input output s ro m df h
    simp [clean_data_pipeline, load_data, h, dfNotTruthy]

/-- C2 witness: with no readable file the pipeline returns `False` and
the unchanged environment; with `in.csv` loadable it raises. -/
theorem claim2_witness :
    clean_data_pipeline envNone initState "in.csv" "out.csv" "default" false "iqr" =
      Except.ok (envNone, initState, false) ∧
    clean_data_pipeline env1 initState "in.csv" "out.csv" "default" false "iqr" =
      Except.error PyErr.valueError :=
  ⟨claim2_pipeline_load_gate.1 envNone initState "in.csv" "out.csv" "default" false "iqr" rfl,
   claim2_pipeline_load_gate.2 env1 initState "in.csv" "out.csv" "default" false "iqr" df6 rfl⟩

/-- C3: under strategy `default`, a previously missing numeric cell
becomes the median of its column's non-missing values, a previously
missing object cell becomes the column's most frequent value (smallest
such on ties) or `Unknown` when the column has no value at all, and
every non-missing cell is unchanged. -/
theorem claim3_default_imputation (st : CleanerState) (df : DataFrame)
    (h : st.raw_data = some df) (i j : Nat)
    (hi : i < df.rows.length) (hj : j < (df.rows.getD i ⟨0, []⟩).cells.length)
    (hjt : j < df.colTypes.length) :
    (handle_missing_values st "default").1.cleaned_data = some (fillDefault df) ∧
    (fillDefault df).rows.length = df.rows.length ∧
    (cellIsNull (getCell df i j) = false →
      getCell (fillDefault df) i j = getCell df i j) ∧
    (df.colTypes.getD j ColType.object = ColType.numeric →
      getCell df i j = Cell.num none →
      ∀ m, medianQ (colNums df j) = some m →
        getCell (fillDefault df) i j = Cell.num (some m)) ∧
    (df.colTypes.getD j ColType.object = ColType.object →
      cellIsNull (getCell df i j) = true →
      (cellStrs (colCells df j) = [] →
        getCell (fillDefault df) i j = Cell.obj (some "Unknown")) ∧
      (cellStrs (colCells df j) ≠ [] →
        ∃ v, modeStr (cellStrs (colCells df j)) = some v ∧
          getCell (fillDefault df) i j = Cell.obj (some v) ∧
          v ∈ cellStrs (colCells df j) ∧
          ∀ w ∈ cellStrs (colCells df j),
            (cellStrs (colCells df j)).count w ≤ (cellStrs (colCells df j)).count v)) := by
  have hcell := fillDefault_getCell df i j hi hj
  have hfill := fills_getD hjt
  refine ⟨by simpa using handle_missing_values_of_raw h "default",
    fillDefault_length df, ?_, ?_, ?_⟩
  · intro hnn
    rw [hcell]
    simp [fillCell, hnn]
  · intro hty hnull m hm
    have hm2 : medianQ (cellNums (colCells df j)) = some m := hm
    rw [hcell, hfill, hty, hnull]
    simp [colFillValue, hm2, fillCell, cellIsNull]
  · intro hty hnull
    constructor
    · intro hempty
      rw [hcell, hfill, hty]
      simp [colFillValue, hempty, modeStr, minString, fillCell, hnull]
    · intro hne
      rcases Option.isSome_iff_exists.mp (modeStr_isSome hne) with ⟨v, hv⟩
      refine ⟨v, hv, ?_, modeStr_mem hv, modeStr_count hv⟩
      rw [hcell, hfill, hty]
      simp [colFillValue, hv, fillCell, hnull]

/-- C3 witness: in `dfMiss` the missing price becomes the median 15 and
the missing city becomes the most frequent city. -/
theorem claim3_witness :
    (handle_missing_values stMiss "default").1.cleaned_data = some (fillDefault dfMiss) ∧
    getCell (fillDefault dfMiss) 1 0 = Cell.num (some 15) ∧
    (∃ v, modeStr (cellStrs (colCells dfMiss 1)) = some v ∧
      getCell (fillDefault dfMiss) 2 1 = Cell.obj (some v) ∧
      v ∈ cellStrs (colCells dfMiss 1) ∧
      ∀ w ∈ cellStrs (colCells dfMiss 1),
        (cellStrs (colCells dfMiss 1)).count w ≤ (cellStrs (colCells dfMiss 1)).count v) :=
  ⟨(claim3_default_imputation stMiss dfMiss rfl 0 0 (by decide) (by decide) (by decide)).1,
   (claim3_default_imputation stMiss dfMiss rfl 1 0 (by decide) (by decide)
      (by decide)).2.2.2.1 (by decide) (by decide) 15
      (by simp [medianQ, colNums, colCells, cellNums, dfMiss, sortQ, insertSorted]
          norm_num),
   ((claim3_default_imputation stMiss dfMiss rfl 2 1 (by decide) (by decide)
      (by decide)).2.2.2.2 (by decide) (by decide)).2 (by decide)⟩

/-- C7: `detect_outliers("iqr")` computes Q1 and Q3 by linear
interpolation, the bounds `Q1 - 1.5 IQR` and `Q3 + 1.5 IQR`, and flags
exactly the rows whose value is strictly outside the bounds (checked on
[1,2,3,4,5,100] in the witness: Q1 = 9/4, Q3 = 19/4, bounds -3/2 and
17/2, only the row holding 100 flagged). -/
theorem claim7_iqr (st : CleanerState) (df : DataFrame)
    (h : st.cleaned_data = some df) (hn : df.rows.length ≠ 0) :
    detect_outliers st "iqr" none =
      Except.ok (st, some ((numericColIdxs df).map (fun j =>
        (df.colNames.getD j "",
          outlierRecord df (outsideBounds (iqrBounds (colNums df j))) j)))) ∧
    (∀ j, (outlierRecord df (outsideBounds (iqrBounds (colNums df j))) j).indices =
      (df.rows.filter (fun r =>
        outsideBounds (iqrBounds (colNums df j))
          (r.cells.getD j (Cell.num none)))).map Row.idx) ∧
    (∀ j q1 q3, quantileLin (1/4) (colNums df j) = some q1 →
      quantileLin (3/4) (colNums df j) = some q3 →
      ∀ c : Cell, outsideBounds (iqrBounds (colNums df j)) c = true ↔
        ∃ v, c = Cell.num (some v) ∧
          (v < q1 - 3/2 * (q3 - q1) ∨ q3 + 3/2 * (q3 - q1) < v)) := by
  refine ⟨?_, fun j => rfl, ?_⟩
  · have hv := detect_outliers_valid h (Or.inl rfl) hn
    simpa [validFlag] using hv
  · intro j q1 q3 h1 h3 c
    have hb : iqrBounds (colNums df j) =
        some (q1 - 3/2 * (q3 - q1), q3 + 3/2 * (q3 - q1)) := by
      unfold iqrBounds
      rw [h1, h3]
    rw [hb]
    cases c with
    | num x =>
      cases x with
      | none => simp [outsideBounds]
      | some v => simp [outsideBounds]
    | obj s => simp [outsideBounds]

/-- C7 witness: the worked example of the specification, evaluated. -/
theorem claim7_witness :
    quantileLin (1/4) (colNums df6 0) = some (9/4) ∧
    quantileLin (3/4) (colNums df6 0) = some (19/4) ∧
    iqrBounds (colNums df6 0) = some (-(3/2), 17/2) ∧
    detect_outliers stDf6 "iqr" none =
      Except.ok (stDf6, some ((numericColIdxs df6).map (fun j =>
        (df6.colNames.getD j "",
          outlierRecord df6 (outsideBounds (iqrBounds (colNums df6 j))) j)))) ∧
    (outlierRecord df6 (outsideBounds (iqrBounds (colNums df6 0))) 0).indices = [5] ∧
    (outlierRecord df6 (outsideBounds (iqrBounds (colNums df6 0))) 0).count = 1 := by
  have hq1 : quantileLin (1/4) (colNums df6 0) = some (9/4) := by
    simp [quantileLin, colNums, colCells, cellNums, df6, sortQ, insertSorted]
    norm_num
  have hq3 : quantileLin (3/4) (colNums df6 0) = some (19/4) := by
    simp [quantileLin, colNums, colCells, cellNums, df6, sortQ, insertSorted]
    norm_num
    all_goals norm_num [Int.toNat]
  have hb : iqrBounds (colNums df6 0) = some (-(3/2), 17/2) := by
    unfold iqrBounds
    rw [hq1, hq3]
    norm_num
  refine ⟨hq1, hq3, hb, (claim7_iqr stDf6 df6 rfl (by decide)).1, ?_, ?_⟩
  · rw [outlierRecord, hb]
    norm_num [outsideBounds, df6, List.filter]
  · rw [outlierRecord, hb]
    norm_num [outsideBounds, df6, List.filter]

/-- C8: `detect_outliers("zscore")` on a column with zero sample
standard deviation (at least two values, all equal) flags no row at all
— the z-scores are NaN (0/0) and a NaN comparison is false — and the
call returns normally with a zero-count record. -/
theorem claim8_zscore_zero_std (st : CleanerState) (df : DataFrame) (j : Nat)
    (c : ℚ) (h : st.cleaned_data = some df) (hn : df.rows.length ≠ 0)
    (hall : ∀ v ∈ colNums df j, v = c) (h2 : 2 ≤ (colNums df j).length) :
    (∀ cl ∈ colCells df j, zFlag (meanVar (colNums df j)) cl = false) ∧
    outlierRecord df (zFlag (meanVar (colNums df j))) j =
      { count := 0, percentage := 0, indices := [] } ∧
    validFlag df "zscore" j = zFlag (meanVar (colNums df j)) ∧
    detect_outliers st "zscore" none =
      Except.ok (st, some ((numericColIdxs df).map (fun i =>
        (df.colNames.getD i "", outlierRecord df (validFlag df "zscore" i) i)))) :=
  ⟨zFlag_const_false hall h2, outlierRecord_const hall h2,
   by simp [validFlag], detect_outliers_valid h (Or.inr rfl) hn⟩

/-- C8 witness: on the constant column [7, 7] the z-score method flags
nothing and reports a zero-count record. -/
theorem claim8_witness :
    (∀ cl ∈ colCells dfConst 0, zFlag (meanVar (colNums dfConst 0)) cl = false) ∧
    outlierRecord dfConst (zFlag (meanVar (colNums dfConst 0))) 0 =
      { count := 0, percentage := 0, indices := [] } :=
  ⟨(claim8_zscore_zero_std stConst dfConst 0 7 rfl (by decide) (by decide) (by decide)).1,
   (claim8_zscore_zero_std stConst dfConst 0 7 rfl (by decide) (by decide) (by decide)).2.1⟩

/-- C10 witness: `stDup` (with a stale cleaned table) and `stMiss` (with
none) share the raw table `dfMiss`, so `handle_missing_values` gives
them the same cleaned table, also right after a deduplication. -/
theorem claim10_witness :
    (handle_missing_values stDup "default").1.cleaned_data =
      (handle_missing_values stMiss "default").1.cleaned_data ∧
    (handle_missing_values ((remove_duplicates stDup).1) "default").1.cleaned_data =
      (handle_missing_values stDup "default").1.cleaned_data :=
  claim10_cleaned_from_raw stDup stMiss dfMiss "default" rfl rfl


